import Mathlib

/-
Verification of the MCP (Model Context Protocol) client core of
team-forge-ai/openchat (src-tauri/src/mcp/).

The Rust sources are shallowly embedded: serde_json::Value becomes the
inductive `Json` (objects as association lists; serde's map insertion
order is immaterial for the lookups we reason about), u64 counters become
Nat with explicit saturation at 2^64 - 1, and effectful operations
(process spawn, pipe writes/reads, HTTP round-trips) take their outcome
as an explicit oracle argument.  Ghost fields (e.g. whether a child
process was spawned or killed) instrument the control flow without
changing it.
-/

namespace Mcp

/-- Model of serde_json::Value.  Numbers are restricted to integers; no
claim under verification inspects numeric content. -/
inductive Json where
  | null
  | bool (b : Bool)
  | num (n : Int)
  | str (s : String)
  | arr (items : List Json)
  | obj (fields : List (String × Json))

/-- Value::get(key): member lookup on objects, None on any other shape
(mirrors serde_json::Value::get with a string index). -/
def Json.get : Json → String → Option Json
  | .obj fields, key => fields.lookup key
  | _, _ => none

/-- Value::as_str(). -/
def Json.asStr : Json → Option String
  | .str s => some s
  | _ => none

/-- Value::as_array(). -/
def Json.asArr : Json → Option (List Json)
  | .arr items => some items
  | _ => none

/-- Value::is_object(). -/
def Json.isObj : Json → Bool
  | .obj _ => true
  | _ => false

/-- Value::is_string(). -/
def Json.isStr : Json → Bool
  | .str _ => true
  | _ => false

/-- The single-quote character, written via its code point to keep the
source free of quote literals. -/
def sqChar : Char := Char.ofNat 39

/-- The backslash character. -/
def bsChar : Char := Char.ofNat 92

/-- The POSIX-safe replacement for an embedded single quote: close the
quote, emit an escaped quote, reopen the quote (the four characters
quote backslash quote quote).  This is the Rust string literal pushed by
sh_escape for each embedded quote. -/
def escSeq : List Char := [sqChar, bsChar, sqChar, sqChar]

/-- Body step of sh_escape's character loop (src/mcp/transport/stdio.rs,
fn sh_escape): an embedded single quote is replaced by `escSeq`, every
other character is pushed unchanged. -/
def escChar (c : Char) : List Char :=
  if c = sqChar then escSeq else [c]

/-- sh_escape (src/mcp/transport/stdio.rs): wrap the argument in single
quotes, escaping embedded single quotes.  The Rust function iterates over
arg.chars() pushing into an output String; the same loop over the
character list. -/
def sh_escape_chars (arg : List Char) : List Char :=
  (arg.foldl (fun out ch => if ch = sqChar then out ++ escSeq else out ++ [ch]) [sqChar])
    ++ [sqChar]

/-- String-level wrapper of `sh_escape_chars`, matching the Rust
signature fn sh_escape(&str) -> String. -/
def sh_escape (arg : String) : String :=
  String.mk (sh_escape_chars arg.data)

mutual

/-- POSIX shell word evaluation (quote removal) for the fragment of the
shell grammar that sh_escape outputs can mention: ordinary characters,
backslash escapes outside quotes, and single-quoted spans (POSIX.1 §2.2.1
and §2.2.2).  The Bool flag is true while inside a single-quoted span,
where every character is literal until the closing quote.  An unterminated
quote or a trailing backslash is an evaluation error (`none`). -/
def shellEvalAux : Bool → List Char → Option (List Char)
  | false, [] => some []
  | false, c :: cs =>
    if c = sqChar then shellEvalAux true cs
    else if c = bsChar then shellEscAux cs
    else (shellEvalAux false cs).map (fun t => c :: t)
  | true, [] => none
  | true, c :: cs =>
    if c = sqChar then shellEvalAux false cs
    else (shellEvalAux true cs).map (fun t => c :: t)

/-- Continuation of `shellEvalAux` after a backslash outside quotes: the
next character is taken literally; a trailing backslash is an error. -/
def shellEscAux : List Char → Option (List Char)
  | [] => none
  | d :: ds => (shellEvalAux false ds).map (fun t => d :: t)

end

/-- Shell evaluation of a whole word, String-level. -/
def shellEval (w : String) : Option String :=
  (shellEvalAux false w.data).map String.mk

/-
Wire constants (src/src-tauri/src/mcp/constants.rs).
-/

def MCP_JSONRPC_VERSION : String := "2.0"

def MCP_PROTOCOL_VERSION : String := "2024-11-05"

def MCP_METHOD_INITIALIZE : String := "initialize"

def MCP_METHOD_TOOLS_LIST : String := "tools/list"

def MCP_METHOD_TOOLS_CALL : String := "tools/call"

def MCP_DEFAULT_CONNECT_TIMEOUT_MS : Nat := 5000

def MCP_DEFAULT_LIST_TOOLS_TIMEOUT_MS : Nat := 5000

def MCP_DEFAULT_TOOL_CALL_TIMEOUT_MS : Nat := 20000

/-- make_mcp_rpc_req (src/src-tauri/src/mcp/rpc.rs): the JSON-RPC 2.0
request envelope. -/
def make_mcp_rpc_req (id : Nat) (method : String) (params : Json) : Json :=
  Json.obj
    [("jsonrpc", Json.str MCP_JSONRPC_VERSION),
     ("id", Json.num (Int.ofNat id)),
     ("method", Json.str method),
     ("params", params)]

/-- extract_mcp_result_or_error (src/src-tauri/src/mcp/rpc.rs): if the
decoded response has an `error` member, fail with its string `message`
(fallback "rpc error"); otherwise succeed with `result`, or null when
`result` is absent.  The same logic appears inlined at the end of
StdioSession::send and HttpSession::send
(src/src-tauri/src/mcp/transport/session/). -/
def extract_mcp_result_or_error (v : Json) : Except String Json :=
  match v.get "error" with
  | some err => .error ((((err.get "message").bind Json.asStr)).getD "rpc error")
  | none => .ok (((v.get "result")).getD Json.null)

/-
Tool-list parsing (src/src-tauri/src/mcp/transport/parsing.rs).
-/

/-- McpToolInfo (src/src-tauri/src/mcp/types.rs). -/
structure McpToolInfo where
  name : String
  description : Option String
  input_schema : Option Json

/-- Per-element body of parse_tools_array's for-loop: entries lacking a
string `name` are skipped (`continue`); `description` is kept only when a
string; the schema is read from `inputSchema` falling back to
`input_schema`, and discarded unless it is an object. -/
def parseToolEntry (tool : Json) : Option McpToolInfo :=
  match (tool.get "name").bind Json.asStr with
  | none => none
  | some name =>
    let description := (tool.get "description").bind Json.asStr
    let schema_val :=
      match tool.get "inputSchema" with
      | some v => some v
      | none => tool.get "input_schema"
    let input_schema := schema_val.bind (fun v => if v.isObj then some v else none)
    some { name := name, description := description, input_schema := input_schema }

/-- The for-loop of parse_tools_array, pushing each successfully parsed
entry in order. -/
def parseToolsLoop : List Json → List McpToolInfo
  | [] => []
  | tool :: rest =>
    match parseToolEntry tool with
    | none => parseToolsLoop rest
    | some info => info :: parseToolsLoop rest

/-- parse_tools_array (src/src-tauri/src/mcp/transport/parsing.rs):
locate the `tools` member (absent or non-array gives the empty default)
and run the element loop. -/
def parse_tools_array (result_value : Json) : List McpToolInfo :=
  let tools := (((result_value.get "tools").bind Json.asArr)).getD []
  parseToolsLoop tools

/-
serde-utils helpers (src/src-tauri/src/mcp/serde_utils.rs).
-/

/-- merge_auth_header (src/src-tauri/src/mcp/serde_utils.rs): insert an
Authorization member derived from the auth token into the optional
headers object, only when no Authorization member is present; never
overwrite an existing one.  serde's map insertion position is immaterial
to member lookup, so insertion is modelled by appending. -/
def merge_auth_header (headers : Option Json) (auth : Option String) : Option Json :=
  match auth with
  | none => headers
  | some token =>
    match headers with
    | some (Json.obj fields) =>
      if (fields.lookup "Authorization").isSome then some (Json.obj fields)
      else some (Json.obj (fields ++ [("Authorization", Json.str token)]))
    | some v => some v
    | none => some (Json.obj [("Authorization", Json.str token)])

/-
A small JSON text parser modelling serde_json::from_str.  It covers the
grammar exercised by this client: null, booleans, integer numbers,
strings with the common escapes, arrays and objects.  Floats and \u
escapes are outside the model (no claim under verification involves
them); on such inputs the model answers `none` where serde would parse,
which never appears in a concrete evaluation below.  Structured values
use explicit fuel; `length + 1` units suffice for any valid input since
every two successive recursive-descent steps consume at least one
character, and exhausting fuel on malformed input coincides with serde's
parse error.
-/

/-- The double-quote character. -/
def dqChar : Char := Char.ofNat 34

/-- The minus character. -/
def minusChar : Char := Char.ofNat 45

/-- Whitespace skipping (JSON insignificant whitespace). -/
def skipWs : List Char → List Char
  | [] => []
  | c :: cs =>
    if c = Char.ofNat 32 ∨ c = Char.ofNat 10 ∨ c = Char.ofNat 9 ∨ c = Char.ofNat 13
    then skipWs cs else c :: cs

/-- Decoding of a character following a backslash in a JSON string. -/
def escDecode (e : Char) : Option Char :=
  if e = dqChar then some dqChar
  else if e = bsChar then some bsChar
  else if e = Char.ofNat 47 then some (Char.ofNat 47)
  else if e = Char.ofNat 110 then some (Char.ofNat 10)
  else if e = Char.ofNat 116 then some (Char.ofNat 9)
  else if e = Char.ofNat 114 then some (Char.ofNat 13)
  else if e = Char.ofNat 98 then some (Char.ofNat 8)
  else if e = Char.ofNat 102 then some (Char.ofNat 12)
  else none

/-- Body of a JSON string after the opening quote; returns the decoded
characters and the input following the closing quote. -/
def parseStrBody : List Char → Option (List Char × List Char)
  | [] => none
  | c :: cs =>
    if c = dqChar then some ([], cs)
    else if c = bsChar then
      match cs with
      | [] => none
      | e :: es =>
        match escDecode e with
        | none => none
        | some d => (parseStrBody es).map (fun p => (d :: p.1, p.2))
    else (parseStrBody cs).map (fun p => (c :: p.1, p.2))

/-- Consume a literal run of expected characters. -/
def expectChars : List Char → List Char → Option (List Char)
  | [], rest => some rest
  | e :: es, c :: cs => if c = e then expectChars es cs else none
  | _ :: _, [] => none

/-- Longest prefix of decimal digits, as digit values. -/
def takeDigits : List Char → List Nat × List Char
  | [] => ([], [])
  | c :: cs =>
    if c.isDigit then
      let p := takeDigits cs
      ((c.toNat - 48) :: p.1, p.2)
    else ([], c :: cs)

/-- Digit-list to number. -/
def natFromDigits (ds : List Nat) : Nat :=
  ds.foldl (fun a d => a * 10 + d) 0

/-- True when the next character would make the number a float or use an
exponent (outside the model). -/
def floatFollows : List Char → Bool
  | c :: _ => c = Char.ofNat 46 ∨ c = Char.ofNat 101 ∨ c = Char.ofNat 69
  | [] => false

mutual

/-- Recursive-descent JSON value parser (fuel-indexed). -/
def parseVal : Nat → List Char → Option (Json × List Char)
  | 0, _ => none
  | Nat.succ fuel, input =>
    match skipWs input with
    | [] => none
    | c :: cs =>
      if c = dqChar then
        (parseStrBody cs).map (fun p => (Json.str (String.mk p.1), p.2))
      else if c = Char.ofNat 123 then
        match skipWs cs with
        | d :: ds =>
          if d = Char.ofNat 125 then some (Json.obj [], ds)
          else parseObjRest fuel (d :: ds) []
        | [] => none
      else if c = Char.ofNat 91 then
        match skipWs cs with
        | d :: ds =>
          if d = Char.ofNat 93 then some (Json.arr [], ds)
          else parseArrRest fuel (d :: ds) []
        | [] => none
      else if c = Char.ofNat 116 then
        (expectChars [Char.ofNat 114, Char.ofNat 117, Char.ofNat 101] cs).map
          (fun rest => (Json.bool true, rest))
      else if c = Char.ofNat 102 then
        (expectChars [Char.ofNat 97, Char.ofNat 108, Char.ofNat 115, Char.ofNat 101] cs).map
          (fun rest => (Json.bool false, rest))
      else if c = Char.ofNat 110 then
        (expectChars [Char.ofNat 117, Char.ofNat 108, Char.ofNat 108] cs).map
          (fun rest => (Json.null, rest))
      else if c = minusChar then
        match cs with
        | d :: _ =>
          if d.isDigit then
            let p := takeDigits cs
            if floatFollows p.2 then none
            else some (Json.num (-(Int.ofNat (natFromDigits p.1))), p.2)
          else none
        | [] => none
      else if c.isDigit then
        let p := takeDigits (c :: cs)
        if floatFollows p.2 then none
        else some (Json.num (Int.ofNat (natFromDigits p.1)), p.2)
      else none

/-- Array elements after the first non-`]` character. -/
def parseArrRest : Nat → List Char → List Json → Option (Json × List Char)
  | 0, _, _ => none
  | Nat.succ fuel, input, acc =>
    match parseVal fuel input with
    | none => none
    | some (v, rest) =>
      match skipWs rest with
      | c :: cs =>
        if c = Char.ofNat 44 then parseArrRest fuel cs (acc ++ [v])
        else if c = Char.ofNat 93 then some (Json.arr (acc ++ [v]), cs)
        else none
      | [] => none

/-- Object members after the first non-`}` character. -/
def parseObjRest : Nat → List Char → List (String × Json) → Option (Json × List Char)
  | 0, _, _ => none
  | Nat.succ fuel, input, acc =>
    match skipWs input with
    | c :: cs =>
      if c = dqChar then
        match parseStrBody cs with
        | none => none
        | some (key, rest1) =>
          match skipWs rest1 with
          | d :: ds =>
            if d = Char.ofNat 58 then
              match parseVal fuel ds with
              | none => none
              | some (v, rest2) =>
                match skipWs rest2 with
                | e :: es =>
                  if e = Char.ofNat 44 then
                    parseObjRest fuel es (acc ++ [(String.mk key, v)])
                  else if e = Char.ofNat 125 then
                    some (Json.obj (acc ++ [(String.mk key, v)]), es)
                  else none
                | [] => none
            else none
          | [] => none
      else none
    | [] => none

end

/-- serde_json::from_str on a whole document: one value, optionally
surrounded by whitespace, with no trailing garbage.  `none` is serde's
parse error. -/
def jsonParse (s : String) : Option Json :=
  match parseVal (s.data.length + 1) s.data with
  | some (v, rest) => if skipWs rest = [] then some v else none
  | none => none

/-
Sessions (src/src-tauri/src/mcp/transport/session/).  Pipe and process
handles are abstract; the u64 request-id counter is a Nat advanced with
u64 saturating addition, exactly as `self.next_id = self.next_id
.saturating_add(1)` in both session types.
-/

/-- Largest u64 value, the saturation point of saturating_add. -/
def U64_MAX : Nat := 2 ^ 64 - 1

/-- u64::saturating_add for in-range operands. -/
def satAdd (a b : Nat) : Nat := min (a + b) U64_MAX

/-- StdioSession (session/stdio.rs): the spawned child (abstracted to a
numeric handle; stdin/reader pipes carry no model state) and the
request-id counter. -/
structure StdioState where
  child : Nat
  next_id : Nat

/-- HttpSession (session/http.rs): client is stateless in the model;
url, optional headers value, request-id counter. -/
structure HttpState where
  url : String
  headers : Option Json
  next_id : Nat

/-- Outcome oracle for a deadline-wrapped pipe write: completed, failed
with an I/O error, or hit the timeout. -/
inductive WriteOutcome where
  | ok
  | ioErr (e : String)
  | timedOut

/-- Outcome oracle for a deadline-wrapped read_line: the line read (empty
when the peer closed the stream before writing — read_line returns Ok(0)
and leaves the buffer empty), an I/O error, or the timeout. -/
inductive ReadOutcome where
  | ok (line : String)
  | ioErr (e : String)
  | timedOut

/-- Outcome oracle for an HTTP round-trip: request error, or a response
with a status code and a body text. -/
inductive HttpOutcome where
  | sendErr (e : String)
  | resp (status : Nat) (body : String)

/-- One StdioSession::send call: the successor state, the JSON-RPC
envelope written, and the call result. -/
structure StdioSendStep where
  state : StdioState
  req : Json
  result : Except String Json

/-- StdioSession::send (session/stdio.rs): advance the id counter with
saturating_add, build the envelope, write one newline-terminated line
under the timeout, read one line under the timeout, decode it, and
extract result/error (the extraction code inlined there is verbatim the
body of extract_mcp_result_or_error).  Serialization of the envelope
cannot fail on model values. -/
def StdioSession.send (s : StdioState) (method : String) (params : Json)
    (_timeout_ms : Nat) (w : WriteOutcome) (r : ReadOutcome) : StdioSendStep :=
  let s' : StdioState := { s with next_id := satAdd s.next_id 1 }
  let req := make_mcp_rpc_req s'.next_id method params
  match w with
  | .timedOut => ⟨s', req, .error "write timeout"⟩
  | .ioErr e => ⟨s', req, .error e⟩
  | .ok =>
    match r with
    | .timedOut => ⟨s', req, .error "read timeout"⟩
    | .ioErr e => ⟨s', req, .error e⟩
    | .ok buf =>
      match jsonParse buf with
      | none => ⟨s', req, .error "invalid json"⟩
      | some v => ⟨s', req, extract_mcp_result_or_error v⟩

/-- The headers HttpSession::send applies to the outgoing request:
string-valued members of the stored headers object, in order; nothing
when the stored value is absent or not an object. -/
def headersToApply (headers : Option Json) : List (String × String) :=
  match headers with
  | some (Json.obj fields) =>
    fields.filterMap (fun kv => (kv.2.asStr).map (fun s => (kv.1, s)))
  | _ => []

/-- One HttpSession::send call: successor state, envelope, the header
list applied to the POST request, and the result. -/
structure HttpSendStep where
  state : HttpState
  req : Json
  headersApplied : List (String × String)
  result : Except String Json

/-- HttpSession::send (session/http.rs): advance the id counter, POST the
envelope with the stored string-valued headers under the per-call
timeout; a non-2xx status fails with "HTTP status: body", a 2xx body that
is not JSON fails with the raw body, otherwise result/error extraction
(again verbatim extract_mcp_result_or_error). -/
def HttpSession.send (s : HttpState) (method : String) (params : Json)
    (_timeout_ms : Nat) (o : HttpOutcome) : HttpSendStep :=
  let s' : HttpState := { s with next_id := satAdd s.next_id 1 }
  let req := make_mcp_rpc_req s'.next_id method params
  let applied := headersToApply s.headers
  match o with
  | .sendErr e => ⟨s', req, applied, .error e⟩
  | .resp status body =>
    if status < 200 ∨ 300 ≤ status then
      ⟨s', req, applied, .error ("HTTP " ++ toString status ++ ": " ++ body)⟩
    else
      match jsonParse body with
      | none => ⟨s', req, applied, .error body⟩
      | some v => ⟨s', req, applied, extract_mcp_result_or_error v⟩

/-- McpSession (session/mod.rs): the transport-dispatching enum. -/
inductive McpSession where
  | stdio (s : StdioState)
  | http (s : HttpState)

/-- Oracle bundle for a transport-polymorphic send: whichever transport
the session has picks the relevant components. -/
structure SendOracle where
  w : WriteOutcome
  r : ReadOutcome
  h : HttpOutcome

/-- McpSession::send: dispatch to the concrete session. -/
def McpSession.send (s : McpSession) (method : String) (params : Json)
    (timeout_ms : Nat) (o : SendOracle) : McpSession × Except String Json :=
  match s with
  | .stdio st =>
    let step := StdioSession.send st method params timeout_ms o.w o.r
    (.stdio step.state, step.result)
  | .http ht =>
    let step := HttpSession.send ht method params timeout_ms o.h
    (.http step.state, step.result)

/-
Stdio transport construction (src/src-tauri/src/mcp/transport/stdio.rs).
-/

/-- is_bare_command (unix cfg): no slash in the command string. -/
def is_bare_command (command : String) : Bool :=
  !(command.contains (Char.ofNat 47))

/-- build_stdio_command: bare commands run through the login shell
($SHELL, default /bin/zsh) as `shell -lc composed` with every part
sh_escaped; commands with a path separator run directly. -/
def build_stdio_command (shellEnvVar : Option String) (command : String)
    (args : List String) : String × List String :=
  if is_bare_command command then
    let shell_path := shellEnvVar.getD "/bin/zsh"
    let composed := args.foldl (fun acc a => acc ++ " " ++ sh_escape a) (sh_escape command)
    (shell_path, ["-lc", composed])
  else
    (command, args)

/-- apply_env_and_cwd, env half: only string-valued members of the env
object are applied. -/
def appliedEnv (env : Option Json) : List (String × String) :=
  match env with
  | some (Json.obj fields) =>
    fields.filterMap (fun kv => (kv.2.asStr).map (fun s => (kv.1, s)))
  | _ => []

/-- Rust's s.trim().is_empty(): true exactly when every character of s
is whitespace (phrased without trimming so it reduces computably). -/
def trimIsEmpty (s : String) : Bool :=
  s.data.all Char.isWhitespace

/-- apply_env_and_cwd, cwd half: empty or all-whitespace cwd is ignored. -/
def effectiveCwd (cwd : Option String) : Option String :=
  match cwd with
  | some c => if trimIsEmpty c then none else some c
  | none => none

/-- init_params (transport/stdio.rs and transport/http.rs): fixed client
identity and protocol version. -/
def init_params : Json :=
  Json.obj
    [("protocolVersion", Json.str MCP_PROTOCOL_VERSION),
     ("capabilities", Json.obj []),
     ("clientInfo",
      Json.obj [("name", Json.str "OpenChat"), ("version", Json.str "0.1.0")])]

/-- Oracle for cmd.spawn() under the connect timeout. -/
inductive SpawnOutcome where
  | ok (child : Nat)
  | osErr (e : String)
  | timedOut

/-- Result of spawn_stdio_session with ghost process accounting:
which child (if any) was spawned, and whether it was killed before
returning. -/
structure SpawnResult where
  result : Except String StdioState
  childSpawned : Option Nat
  childKilled : Bool

/-- spawn_stdio_session (transport/stdio.rs): build and spawn the
command (construction is `build_stdio_command`/`appliedEnv`/
`effectiveCwd`; the spawn outcome is the oracle), take the pipes, then
send the `initialize` handshake under the connect timeout.  On a
handshake error the `?` operator returns the error and merely drops the
session; the tokio Child is not configured with kill_on_drop, so the
spawned child is NOT killed on that path (childKilled stays false). -/
def spawn_stdio_session (_command : String) (_args : List String) (_env : Option Json)
    (_cwd : Option String) (connect_timeout_ms : Nat) (spawnO : SpawnOutcome)
    (stdinPresent stdoutPresent : Bool) (initW : WriteOutcome) (initR : ReadOutcome) :
    SpawnResult :=
  match spawnO with
  | .timedOut => ⟨.error "spawn timeout", none, false⟩
  | .osErr e => ⟨.error ("spawn error: " ++ e), none, false⟩
  | .ok child =>
    if !stdinPresent then ⟨.error "no stdin", some child, false⟩
    else if !stdoutPresent then ⟨.error "no stdout", some child, false⟩
    else
      let session : StdioState := { child := child, next_id := 0 }
      let step := StdioSession.send session MCP_METHOD_INITIALIZE init_params
        connect_timeout_ms initW initR
      match step.result with
      | .error e => ⟨.error e, some child, false⟩
      | .ok _ => ⟨.ok step.state, some child, false⟩

/-- create_http_session (transport/http.rs): build the client with the
connect timeout (construction may fail), then send `initialize`; a
handshake error aborts, success yields the session (with its counter
already advanced past the handshake id). -/
def create_http_session (url : String) (headers : Option Json)
    (connect_timeout_ms : Nat) (clientBuild : Except String Unit)
    (initO : HttpOutcome) : Except String HttpState :=
  match clientBuild with
  | .error e => .error e
  | .ok _ =>
    let session : HttpState := { url := url, headers := headers, next_id := 0 }
    let step := HttpSession.send session MCP_METHOD_INITIALIZE init_params
      connect_timeout_ms initO
    match step.result with
    | .error e => .error e
    | .ok _ => .ok step.state

/-
Connectivity probe (src/src-tauri/src/mcp/transport/validation.rs).
-/

/-- McpCheckResult (src/src-tauri/src/mcp/types.rs). -/
structure McpCheckResult where
  ok : Bool
  tools_count : Option Nat
  tools : Option (List McpToolInfo)
  warning : Option String
  error : Option String

/-- One probe run together with ghost process accounting. -/
structure ProbeRun where
  result : McpCheckResult
  childSpawned : Option Nat
  childKilled : Bool

/-- check_server, Stdio arm (validation.rs): reject empty or whitespace
commands, spawn the session (which performs the handshake), send
tools/list with empty-object params under the list timeout; on tools
failure kill the child and fail, on success parse the tools, kill the
child and report ok. -/
def check_server_stdio (command : String) (args : List String) (env : Option Json)
    (cwd : Option String) (connect_timeout_ms list_tools_timeout_ms : Nat)
    (spawnO : SpawnOutcome) (stdinPresent stdoutPresent : Bool)
    (initW : WriteOutcome) (initR : ReadOutcome)
    (toolsW : WriteOutcome) (toolsR : ReadOutcome) : ProbeRun :=
  if trimIsEmpty command then
    ⟨⟨false, none, none, none, some "Command cannot be empty"⟩, none, false⟩
  else
    let sp := spawn_stdio_session command args env cwd connect_timeout_ms spawnO
      stdinPresent stdoutPresent initW initR
    match sp.result with
    | .error e => ⟨⟨false, none, none, none, some e⟩, sp.childSpawned, sp.childKilled⟩
    | .ok session =>
      let step := StdioSession.send session MCP_METHOD_TOOLS_LIST (Json.obj [])
        list_tools_timeout_ms toolsW toolsR
      match step.result with
      | .error _ =>
        ⟨⟨false, none, none, none, some "Failed to request tools/list"⟩,
         sp.childSpawned, true⟩
      | .ok v =>
        let tools := parse_tools_array v
        ⟨⟨true, some tools.length, some tools, none, none⟩, sp.childSpawned, true⟩

/-- check_server, Http arm (validation.rs): create the session (client
build plus handshake), send tools/list; there is no process to release. -/
def check_server_http (url : String) (headers : Option Json)
    (connect_timeout_ms list_tools_timeout_ms : Nat)
    (clientBuild : Except String Unit) (initO toolsO : HttpOutcome) : ProbeRun :=
  match create_http_session url headers connect_timeout_ms clientBuild initO with
  | .error e => ⟨⟨false, none, none, none, some e⟩, none, false⟩
  | .ok session =>
    let step := HttpSession.send session MCP_METHOD_TOOLS_LIST (Json.obj [])
      list_tools_timeout_ms toolsO
    match step.result with
    | .error e =>
      ⟨⟨false, none, none, none, some ("Failed HTTP tools/list: " ++ e)⟩, none, false⟩
    | .ok v =>
      let tools := parse_tools_array v
      ⟨⟨true, some tools.length, some tools, none, none⟩, none, false⟩

/-
Session manager (src/src-tauri/src/mcp/manager.rs).  The HashMap behind
the tokio Mutex is an association list; each manager operation holds the
lock for its whole duration, so an operation is one atomic function from
cache to cache.
-/

/-- The session cache. -/
abbrev Cache := List (Int × McpSession)

/-- HashMap::get. -/
def cacheLookup (c : Cache) (id : Int) : Option McpSession :=
  c.lookup id

/-- HashMap::contains_key. -/
def cacheContains (c : Cache) (id : Int) : Bool :=
  (cacheLookup c id).isSome

/-- HashMap::insert (position in the list is immaterial to lookup). -/
def cacheInsert (c : Cache) (id : Int) (s : McpSession) : Cache :=
  (id, s) :: c.eraseP (fun p => p.1 == id)

/-- Write-back of the session mutated in place through get_mut. -/
def cacheUpdate (c : Cache) (id : Int) (s : McpSession) : Cache :=
  c.map (fun p => if p.1 == id then (id, s) else p)

/-- Result of an ensure_* call: the call result, the cache afterwards,
and the ghost flag telling whether transport construction (spawn or
client build plus handshake) was attempted at all. -/
structure EnsureOut where
  result : Except String Unit
  sessions : Cache
  attempted : Bool

/-- McpManager::ensure_stdio (manager.rs): under the cache lock, an
existing entry short-circuits to Ok without touching anything; otherwise
spawn_stdio_session runs and only a successful session is inserted. -/
def McpManager.ensure_stdio (sessions : Cache) (id : Int) (command : String)
    (args : List String) (env : Json) (cwd : Option String) (connect_timeout_ms : Nat)
    (spawnO : SpawnOutcome) (stdinPresent stdoutPresent : Bool)
    (initW : WriteOutcome) (initR : ReadOutcome) : EnsureOut :=
  if cacheContains sessions id then ⟨.ok (), sessions, false⟩
  else
    match (spawn_stdio_session command args (some env) cwd connect_timeout_ms spawnO
        stdinPresent stdoutPresent initW initR).result with
    | .error e => ⟨.error e, sessions, true⟩
    | .ok s => ⟨.ok (), cacheInsert sessions id (.stdio s), true⟩

/-- McpManager::ensure_http (manager.rs): same shape over
create_http_session. -/
def McpManager.ensure_http (sessions : Cache) (id : Int) (url : String)
    (headers : Option Json) (connect_timeout_ms : Nat)
    (clientBuild : Except String Unit) (initO : HttpOutcome) : EnsureOut :=
  if cacheContains sessions id then ⟨.ok (), sessions, false⟩
  else
    match create_http_session url headers connect_timeout_ms clientBuild initO with
    | .error e => ⟨.error e, sessions, true⟩
    | .ok s => ⟨.ok (), cacheInsert sessions id (.http s), true⟩

/-- McpManager::list_tools (manager.rs): look up the session ("not
connected" when absent), send tools/list with null params, parse. -/
def McpManager.list_tools (sessions : Cache) (id : Int) (timeout_ms : Nat)
    (o : SendOracle) : Cache × Except String (List McpToolInfo) :=
  match cacheLookup sessions id with
  | none => (sessions, .error "not connected")
  | some s =>
    let step := McpSession.send s MCP_METHOD_TOOLS_LIST Json.null timeout_ms o
    (cacheUpdate sessions id step.1, step.2.map parse_tools_array)

/-- Body of the for-loop over content blocks in McpManager::call_tool:
out gains a separating newline only when already nonempty, then the text
of blocks whose type is "text" and whose text member is a string. -/
def contentLoop : List Json → String → String
  | [], out => out
  | item :: rest, out =>
    match (item.get "type").bind Json.asStr with
    | some t =>
      if t = "text" then
        match (item.get "text").bind Json.asStr with
        | some txt => contentLoop rest ((if out = "" then out else out ++ "\n") ++ txt)
        | none => contentLoop rest out
      else contentLoop rest out
    | none => contentLoop rest out

/-- The content-extraction match at the end of McpManager::call_tool: a
string content is returned as-is, an array runs the block loop from the
empty accumulator, every other shape yields the empty string. -/
def extract_tool_content (result : Json) : String :=
  match result.get "content" with
  | some (Json.str s) => s
  | some (Json.arr items) => contentLoop items ""
  | _ => ""

/-- McpManager::call_tool (manager.rs): look up the session, send
tools/call with name/arguments params, extract the textual content. -/
def McpManager.call_tool (sessions : Cache) (id : Int) (tool : String) (args : Json)
    (timeout_ms : Nat) (o : SendOracle) : Cache × Except String String :=
  match cacheLookup sessions id with
  | none => (sessions, .error "not connected")
  | some s =>
    let step := McpSession.send s MCP_METHOD_TOOLS_CALL
      (Json.obj [("name", Json.str tool), ("arguments", args)]) timeout_ms o
    (cacheUpdate sessions id step.1, step.2.map extract_tool_content)

/-
Config-row adapter (src/src-tauri/src/mcp/session.rs and
src/src-tauri/src/mcp/store.rs).
-/

/-- DbMcpServer (store.rs): the persisted server row. -/
structure DbMcpServer where
  transport : String
  command : Option String
  args : Option String
  env : Option String
  cwd : Option String
  url : Option String
  headers : Option String
  auth : Option String
  heartbeat_sec : Option Int
  connect_timeout_ms : Option Int
  enabled : Int

/-- parse_mcp_string_array (serde_utils.rs): decode a JSON string-array
column, empty list on empty/missing/undecodable input. -/
def parse_mcp_string_array (s : Option String) : List String :=
  match s with
  | some raw =>
    if raw = "" then []
    else
      match jsonParse raw with
      | some (Json.arr items) => ((items.mapM Json.asStr)).getD []
      | _ => []
  | none => []

/-- parse_mcp_json_object (serde_utils.rs): decode a JSON column, empty
object on empty/missing/undecodable input. -/
def parse_mcp_json_object (s : Option String) : Json :=
  match s with
  | some raw => if raw = "" then Json.obj [] else ((jsonParse raw)).getD (Json.obj [])
  | none => Json.obj []

/-- parse_mcp_json_object_opt (serde_utils.rs): decode a JSON column to
an optional value. -/
def parse_mcp_json_object_opt (s : Option String) : Option Json :=
  match s with
  | some raw => if raw = "" then none else jsonParse raw
  | none => none

/-- normalize_connect_timeout (session.rs): negative or missing values
fall back to the 5000 ms default. -/
def normalize_connect_timeout (value : Option Int) : Nat :=
  match value with
  | some v => if v < 0 then MCP_DEFAULT_CONNECT_TIMEOUT_MS else v.toNat
  | none => MCP_DEFAULT_CONNECT_TIMEOUT_MS

/-- ensure_stdio_from_row (session.rs): require a command, decode args
and env, delegate to the manager. -/
def ensure_stdio_from_row (sessions : Cache) (id : Int) (row : DbMcpServer)
    (connect_ms : Nat) (spawnO : SpawnOutcome) (stdinPresent stdoutPresent : Bool)
    (initW : WriteOutcome) (initR : ReadOutcome) : EnsureOut :=
  match row.command with
  | none => ⟨.error "missing command", sessions, false⟩
  | some command =>
    let args_vec := parse_mcp_string_array row.args
    let env_val := parse_mcp_json_object row.env
    McpManager.ensure_stdio sessions id command args_vec env_val row.cwd connect_ms
      spawnO stdinPresent stdoutPresent initW initR

/-- ensure_http_from_row (session.rs): require a url, decode the headers
column, delegate to the manager.  Note that `row.auth` is not read on
this path: the row's auth token never reaches the session. -/
def ensure_http_from_row (sessions : Cache) (id : Int) (row : DbMcpServer)
    (connect_ms : Nat) (clientBuild : Except String Unit) (initO : HttpOutcome) :
    EnsureOut :=
  match row.url with
  | none => ⟨.error "missing url", sessions, false⟩
  | some url =>
    let headers_val := parse_mcp_json_object_opt row.headers
    McpManager.ensure_http sessions id url headers_val connect_ms clientBuild initO

/-
Specification-side vocabulary: definitions phrasing the spec's claims,
to be compared with the source-derived functions above.
-/

/-- The string name of a tools-list entry, when it has one. -/
def entryName (t : Json) : Option String :=
  (t.get "name").bind Json.asStr

/-- Whether a tools-list entry is well-formed (has a string `name`). -/
def hasStringName (t : Json) : Bool :=
  (entryName t).isSome

/-- The text carried by a content block whose `type` is "text", when its
`text` member is a string. -/
def textOf (item : Json) : Option String :=
  match (item.get "type").bind Json.asStr with
  | some t => if t = "text" then (item.get "text").bind Json.asStr else none
  | none => none

/-- Newline-prefixed concatenation of a tail of join parts. -/
def tailJoin : List String → String
  | [] => ""
  | t :: ts => "\n" ++ t ++ tailJoin ts

/-- The spec's "joined by a single newline" on a list of text parts. -/
def newlineJoin : List String → String
  | [] => ""
  | t :: ts => t ++ tailJoin ts

/-- The stdio session state after n sends on a fresh session whose child
handle is c (send outcomes do not affect the state, as proved below). -/
def stdioStateIter (c : Nat) : Nat → StdioState
  | 0 => { child := c, next_id := 0 }
  | n + 1 =>
    (StdioSession.send (stdioStateIter c n) "m" Json.null 1000 .ok (.ok "null")).state

/-- The http session state after n sends on a fresh session. -/
def httpStateIter : Nat → HttpState
  | 0 => { url := "u", headers := none, next_id := 0 }
  | n + 1 =>
    (HttpSession.send (httpStateIter n) "m" Json.null 1000 (.resp 200 "null")).state

/-
Concrete inputs used by the theorems below.
-/

/-- An http config row carrying an auth token and no headers. -/
def c2Row : DbMcpServer :=
  { transport := "http", command := none, args := none, env := none, cwd := none,
    url := some "u", headers := none, auth := some "Bearer tok",
    heartbeat_sec := none, connect_timeout_ms := none, enabled := 1 }

/-- The manager state after a first successful ensure_http for id 1. -/
def c4FirstEnsure : EnsureOut :=
  McpManager.ensure_http [] 1 "urlA" none 5000 (.ok ()) (.resp 200 "null")

/-- A tools-list result with three well-formed entries (one with each
schema spelling, one without a schema) and one entry missing a name. -/
def c7ToolsEntries : List Json :=
  [Json.obj [("name", Json.str "apple_execute"),
             ("description", Json.str "Run AppleScript"),
             ("inputSchema", Json.obj [("type", Json.str "object")])],
   Json.obj [("name", Json.str "lowercase"),
             ("input_schema", Json.obj [("type", Json.str "object")])],
   Json.obj [("name", Json.str "no_schema")],
   Json.obj [("description", Json.str "missing name")]]

/-- The result value wrapping `c7ToolsEntries`. -/
def c7Result : Json := Json.obj [("tools", Json.arr c7ToolsEntries)]

/-- Two text blocks, the first with empty text. -/
def c9Blocks : List Json :=
  [Json.obj [("type", Json.str "text"), ("text", Json.str "")],
   Json.obj [("type", Json.str "text"), ("text", Json.str "b")]]

/-- A call result whose content is `c9Blocks`. -/
def c9Result : Json := Json.obj [("content", Json.arr c9Blocks)]

/-- Scenario D content: text "a", an image block, text "b". -/
def c9ScenarioD : Json :=
  Json.obj [("content", Json.arr
    [Json.obj [("type", Json.str "text"), ("text", Json.str "a")],
     Json.obj [("type", Json.str "image"), ("data", Json.str "...")],
     Json.obj [("type", Json.str "text"), ("text", Json.str "b")]])]

/-
Theorems.
-/

theorem sh_escape_chars_eq_flatMap (arg : List Char) :
    sh_escape_chars arg = sqChar :: (arg.flatMap escChar ++ [sqChar]) := by
  have h : ∀ (l : List Char) (init : List Char),
      l.foldl (fun out ch => if ch = sqChar then out ++ escSeq else out ++ [ch]) init
        = init ++ l.flatMap escChar := by
    intro l
    induction l with
    | nil => intro init; simp
    | cons c cs ih =>
      intro init
      have hstep : (if c = sqChar then init ++ escSeq else init ++ [c])
          = init ++ escChar c := by
        by_cases hc : c = sqChar <;> simp [escChar, hc]
      simp only [List.foldl, hstep, ih, List.flatMap_cons, List.append_assoc]
  unfold sh_escape_chars
  rw [h arg [sqChar]]
  rfl

theorem shellEvalAux_false_sq (cs : List Char) :
    shellEvalAux false (sqChar :: cs) = shellEvalAux true cs := by
  rw [shellEvalAux, if_pos rfl]

theorem shellEvalAux_true_sq (cs : List Char) :
    shellEvalAux true (sqChar :: cs) = shellEvalAux false cs := by
  rw [shellEvalAux, if_pos rfl]

theorem shellEvalAux_true_other (c : Char) (cs : List Char) (h : ¬ c = sqChar) :
    shellEvalAux true (c :: cs) = (shellEvalAux true cs).map (fun t => c :: t) := by
  rw [shellEvalAux, if_neg h]

theorem shellEvalAux_false_bs (d : Char) (ds : List Char) :
    shellEvalAux false (bsChar :: d :: ds)
      = (shellEvalAux false ds).map (fun t => d :: t) := by
  have hne : ¬ bsChar = sqChar := by decide
  rw [shellEvalAux, if_neg hne, if_pos rfl, shellEscAux]

theorem shellEvalAux_escBody (s : List Char) :
    ∀ rest : List Char,
      shellEvalAux true (s.flatMap escChar ++ sqChar :: rest)
        = (shellEvalAux false rest).map (fun t => s ++ t) := by
  induction s with
  | nil =>
    intro rest
    rw [List.flatMap_nil, List.nil_append, shellEvalAux_true_sq]
    cases shellEvalAux false rest <;> simp
  | cons c cs ih =>
    intro rest
    by_cases hc : c = sqChar
    · subst hc
      have hesc : escChar sqChar = [sqChar, bsChar, sqChar, sqChar] := by
        simp [escChar, escSeq]
      rw [List.flatMap_cons, hesc, List.append_assoc]
      rw [show ([sqChar, bsChar, sqChar, sqChar] : List Char)
            ++ (cs.flatMap escChar ++ sqChar :: rest)
          = sqChar :: bsChar :: sqChar
            :: (sqChar :: (cs.flatMap escChar ++ sqChar :: rest)) from rfl]
      rw [shellEvalAux_true_sq, shellEvalAux_false_bs, shellEvalAux_false_sq]
      rw [ih rest]
      cases shellEvalAux false rest <;> simp
    · have hesc : escChar c = [c] := by simp [escChar, hc]
      rw [List.flatMap_cons, hesc, List.append_assoc]
      rw [show ([c] : List Char) ++ (cs.flatMap escChar ++ sqChar :: rest)
          = c :: (cs.flatMap escChar ++ sqChar :: rest) from rfl]
      rw [shellEvalAux_true_other c _ hc, ih rest]
      cases shellEvalAux false rest <;> simp

theorem shellEvalAux_sh_escape (s : List Char) :
    shellEvalAux false (sh_escape_chars s) = some s := by
  rw [sh_escape_chars_eq_flatMap]
  rw [show (s.flatMap escChar ++ [sqChar] : List Char)
      = s.flatMap escChar ++ sqChar :: [] from rfl]
  rw [shellEvalAux_false_sq, shellEvalAux_escBody s []]
  rw [show shellEvalAux false [] = some [] from rfl]
  simp

/-- Claim C6: sh_escape returns the input wrapped in single quotes with
each embedded single quote replaced by the four-character sequence
quote-backslash-quote-quote and no other character altered, and POSIX
shell evaluation of the escaped form yields back exactly the original
string. -/
theorem sh_escape_shape_and_roundtrip (s : String) :
    sh_escape s
      = String.mk (sqChar ::
          (s.data.flatMap
            (fun c => if c = sqChar then [sqChar, bsChar, sqChar, sqChar] else [c])
           ++ [sqChar])) ∧
    shellEval (sh_escape s) = some s := by
  constructor
  · have hfun : escChar
        = fun c => if c = sqChar then [sqChar, bsChar, sqChar, sqChar] else [c] := by
      funext c
      simp [escChar, escSeq]
    simp only [sh_escape, sh_escape_chars_eq_flatMap, hfun]
  · show (shellEvalAux false (sh_escape_chars s.data)).map String.mk = some s
    rw [shellEvalAux_sh_escape]
    rfl


/-- Claim C8: a decoded response object with an `error` member fails with
that error's string `message`, or with "rpc error" when the message is
absent or not a string; a response with neither `result` nor `error`
succeeds with null, never an error. -/
theorem extract_result_or_error_spec (v : Json) :
    (∀ err m, v.get "error" = some err → err.get "message" = some (Json.str m) →
      extract_mcp_result_or_error v = .error m) ∧
    (∀ err, v.get "error" = some err → ((err.get "message").bind Json.asStr) = none →
      extract_mcp_result_or_error v = .error "rpc error") ∧
    (v.get "error" = none → v.get "result" = none →
      extract_mcp_result_or_error v = .ok Json.null) := by
  refine ⟨?_, ?_, ?_⟩
  · intro err m he hm
    simp [extract_mcp_result_or_error, he, hm, Json.asStr]
  · intro err he hm
    simp [extract_mcp_result_or_error, he, hm]
  · intro he hr
    simp [extract_mcp_result_or_error, he, hr]

/-- Witness for C8: instances of all three cases at concrete responses. -/
theorem extract_result_or_error_spec_witness :
    extract_mcp_result_or_error
        (Json.obj [("error", Json.obj [("message", Json.str "boom")])])
      = .error "boom" ∧
    extract_mcp_result_or_error (Json.obj [("error", Json.obj [])])
      = .error "rpc error" ∧
    extract_mcp_result_or_error (Json.obj []) = .ok Json.null := by
  refine ⟨?_, ?_, ?_⟩
  · exact (extract_result_or_error_spec _).1 _ _ rfl rfl
  · exact (extract_result_or_error_spec _).2.1 _ rfl rfl
  · exact (extract_result_or_error_spec _).2.2 rfl rfl

/-- Claim C10: a stdio send whose read completes with zero bytes (the
child closed stdout without writing a line, so the buffer stays empty)
returns the JSON-decode failure for the empty buffer: an error, not the
timeout error and not a null success. -/
theorem stdio_send_empty_read_json_error (st : StdioState) (method : String)
    (params : Json) (timeout_ms : Nat) :
    (StdioSession.send st method params timeout_ms .ok (.ok "")).result
      = .error "invalid json" ∧
    jsonParse "" = none ∧
    (StdioSession.send st method params timeout_ms .ok (.ok "")).result
      ≠ .ok Json.null ∧
    (StdioSession.send st method params timeout_ms .ok (.ok "")).result
      ≠ .error "read timeout" := by
  refine ⟨rfl, rfl, ?_, ?_⟩
  · intro hc
    exact Except.noConfusion hc
  · intro hc
    injection hc with h
    exact absurd h (by decide)

theorem parseToolsLoop_eq_filterMap (ts : List Json) :
    parseToolsLoop ts = ts.filterMap parseToolEntry := by
  induction ts with
  | nil => rfl
  | cons tool rest ih =>
    cases h : parseToolEntry tool <;>
      simp [parseToolsLoop, List.filterMap_cons, h, ih]

theorem parseToolEntry_isSome (t : Json) :
    (parseToolEntry t).isSome = hasStringName t := by
  unfold parseToolEntry hasStringName entryName
  cases (t.get "name").bind Json.asStr <;> simp

theorem parseToolEntry_name (t : Json) (info : McpToolInfo)
    (h : parseToolEntry t = some info) : entryName t = some info.name := by
  unfold parseToolEntry at h
  unfold entryName
  cases hn : (t.get "name").bind Json.asStr with
  | none => rw [hn] at h; exact absurd h (by simp)
  | some n =>
    rw [hn] at h
    simp only [Option.some.injEq] at h
    rw [← h]

theorem parseToolEntry_schema (t : Json) (info : McpToolInfo) (sc : Json)
    (h : parseToolEntry t = some info) (hs : info.input_schema = some sc) :
    sc.isObj = true := by
  unfold parseToolEntry at h
  cases hn : (t.get "name").bind Json.asStr with
  | none => rw [hn] at h; exact absurd h (by simp)
  | some n =>
    rw [hn] at h
    simp only [Option.some.injEq] at h
    rw [← h] at hs
    simp only [Option.bind_eq_some] at hs
    obtain ⟨v0, _, hv0⟩ := hs
    by_cases hv : v0.isObj = true
    · rw [if_pos hv] at hv0
      cases hv0
      exact hv
    · rw [if_neg hv] at hv0
      exact absurd hv0 (by simp)

theorem parseToolEntry_description (t : Json) (info : McpToolInfo) (d : String)
    (h : parseToolEntry t = some info) (hd : info.description = some d) :
    t.get "description" = some (Json.str d) := by
  unfold parseToolEntry at h
  cases hn : (t.get "name").bind Json.asStr with
  | none => rw [hn] at h; exact absurd h (by simp)
  | some n =>
    rw [hn] at h
    simp only [Option.some.injEq] at h
    rw [← h] at hd
    simp only [Option.bind_eq_some] at hd
    obtain ⟨j, hj, hjs⟩ := hd
    cases j <;> simp [Json.asStr] at hjs
    subst hjs
    exact hj

theorem length_filterMap_countP (ts : List Json) :
    (ts.filterMap parseToolEntry).length = ts.countP hasStringName := by
  induction ts with
  | nil => rfl
  | cons tool rest ih =>
    rw [List.countP_cons, ← parseToolEntry_isSome]
    cases h : parseToolEntry tool <;>
      simp [List.filterMap_cons, h, ih]

theorem map_name_filterMap (ts : List Json) :
    (ts.filterMap parseToolEntry).map McpToolInfo.name = ts.filterMap entryName := by
  induction ts with
  | nil => rfl
  | cons tool rest ih =>
    cases h : parseToolEntry tool with
    | none =>
      have hn : entryName tool = none := by
        have := parseToolEntry_isSome tool
        rw [h] at this
        unfold hasStringName at this
        cases he : entryName tool
        · rfl
        · rw [he] at this; simp at this
      simp [List.filterMap_cons, h, hn, ih]
    | some info =>
      have hn := parseToolEntry_name tool info h
      simp [List.filterMap_cons, h, hn, ih]

/-- Claim C7: tools-list parsing returns the empty list when the `tools`
member is absent or not an array; otherwise it yields exactly one
descriptor per entry with a string name, in array order, skipping the
malformed entries; a description is carried only when the entry's
`description` member is that string, and every carried schema is an
object. -/
theorem parse_tools_array_spec (v : Json) :
    ((v.get "tools").bind Json.asArr = none → parse_tools_array v = []) ∧
    (∀ ts, (v.get "tools").bind Json.asArr = some ts →
      (parse_tools_array v).length = ts.countP hasStringName ∧
      (parse_tools_array v).map McpToolInfo.name = ts.filterMap entryName ∧
      (∀ info, info ∈ parse_tools_array v →
        (∀ sc, info.input_schema = some sc → sc.isObj = true) ∧
        (∀ d, info.description = some d →
          ∃ t, t ∈ ts ∧ t.get "description" = some (Json.str d)))) := by
  constructor
  · intro h
    simp [parse_tools_array, h, parseToolsLoop]
  · intro ts h
    have hp : parse_tools_array v = ts.filterMap parseToolEntry := by
      simp [parse_tools_array, h, parseToolsLoop_eq_filterMap]
    refine ⟨?_, ?_, ?_⟩
    · rw [hp, length_filterMap_countP]
    · rw [hp, map_name_filterMap]
    · intro info hmem
      rw [hp] at hmem
      rw [List.mem_filterMap] at hmem
      obtain ⟨t, ht, hte⟩ := hmem
      refine ⟨fun sc hs => parseToolEntry_schema t info sc hte hs, ?_⟩
      intro d hd
      exact ⟨t, ht, parseToolEntry_description t info d hte hd⟩

/-- Witness for C7: the concrete tools-list with three well-formed and
one malformed entry parses to exactly those three names in order, and a
non-object result parses to the empty list. -/
theorem parse_tools_array_spec_witness :
    (parse_tools_array c7Result).length = 3 ∧
    (parse_tools_array c7Result).map McpToolInfo.name
      = ["apple_execute", "lowercase", "no_schema"] ∧
    parse_tools_array Json.null = [] := by
  have h := (parse_tools_array_spec c7Result).2 c7ToolsEntries rfl
  refine ⟨?_, ?_, (parse_tools_array_spec Json.null).1 rfl⟩
  · rw [h.1]; rfl
  · rw [h.2.1]; rfl

theorem cacheLookup_eq_none_of_not_contains (c : Cache) (id : Int)
    (h : cacheContains c id = false) : cacheLookup c id = none := by
  unfold cacheContains at h
  cases hl : cacheLookup c id
  · rfl
  · rw [hl] at h; simp at h

/-- Claim C4: when a session for the id is already cached, ensure_stdio
and ensure_http return success immediately, attempt no transport
construction, and leave the cache (hence the cached session and its
configuration) unchanged, whatever configuration parameters the call
supplies. -/
theorem ensure_idempotent_first_writer_wins (sessions : Cache) (id : Int)
    (command : String) (args : List String) (env : Json) (cwd : Option String)
    (ct : Nat) (spawnO : SpawnOutcome) (stdinP stdoutP : Bool)
    (iw : WriteOutcome) (ir : ReadOutcome)
    (url : String) (headers : Option Json) (ct2 : Nat)
    (cb : Except String Unit) (ho : HttpOutcome)
    (h : cacheContains sessions id = true) :
    McpManager.ensure_stdio sessions id command args env cwd ct spawnO stdinP stdoutP iw ir
      = ⟨.ok (), sessions, false⟩ ∧
    McpManager.ensure_http sessions id url headers ct2 cb ho
      = ⟨.ok (), sessions, false⟩ := by
  constructor
  · simp [McpManager.ensure_stdio, h]
  · simp [McpManager.ensure_http, h]

/-- Witness for C4: after a first successful ensure_http for id 1, a
second ensure of either transport with entirely different parameters is
a success-returning no-op. -/
theorem ensure_idempotent_first_writer_wins_witness :
    cacheContains c4FirstEnsure.sessions 1 = true ∧
    McpManager.ensure_stdio c4FirstEnsure.sessions 1 "other" [] (Json.obj []) none 1
        .timedOut false false .timedOut .timedOut
      = ⟨.ok (), c4FirstEnsure.sessions, false⟩ ∧
    McpManager.ensure_http c4FirstEnsure.sessions 1 "urlB" (some (Json.obj [])) 9
        (.error "x") (.sendErr "y")
      = ⟨.ok (), c4FirstEnsure.sessions, false⟩ := by
  have h : cacheContains c4FirstEnsure.sessions 1 = true := rfl
  have h2 := ensure_idempotent_first_writer_wins c4FirstEnsure.sessions 1 "other" []
    (Json.obj []) none 1 .timedOut false false .timedOut .timedOut "urlB"
    (some (Json.obj [])) 9 (.error "x") (.sendErr "y") h
  exact ⟨h, h2.1, h2.2⟩

/-- Claim C5: an ensure call that fails (spawn, client construction or
handshake failure) leaves the cache unchanged and inserts nothing, and a
list_tools or call_tool against an id with no cached session fails with
the not-connected error. -/
theorem ensure_failure_leaves_cache_unchanged (sessions : Cache) (id : Int)
    (command : String) (args : List String) (env : Json) (cwd : Option String)
    (ct : Nat) (spawnO : SpawnOutcome) (stdinP stdoutP : Bool)
    (iw : WriteOutcome) (ir : ReadOutcome)
    (url : String) (headers : Option Json) (cb : Except String Unit) (ho : HttpOutcome)
    (tool : String) (cargs : Json) (tm : Nat) (so : SendOracle)
    (hnc : cacheContains sessions id = false) :
    (∀ e, (spawn_stdio_session command args (some env) cwd ct spawnO stdinP stdoutP
        iw ir).result = .error e →
      McpManager.ensure_stdio sessions id command args env cwd ct spawnO stdinP stdoutP iw ir
        = ⟨.error e, sessions, true⟩) ∧
    (∀ e, create_http_session url headers ct cb ho = .error e →
      McpManager.ensure_http sessions id url headers ct cb ho
        = ⟨.error e, sessions, true⟩) ∧
    (McpManager.list_tools sessions id tm so).2 = .error "not connected" ∧
    (McpManager.call_tool sessions id tool cargs tm so).2 = .error "not connected" := by
  have hl := cacheLookup_eq_none_of_not_contains sessions id hnc
  refine ⟨?_, ?_, ?_, ?_⟩
  · intro e he
    simp [McpManager.ensure_stdio, hnc, he]
  · intro e he
    simp [McpManager.ensure_http, hnc, he]
  · simp [McpManager.list_tools, hl]
  · simp [McpManager.call_tool, hl]

/-- Witness for C5: on the empty cache, a spawn timeout and a client
construction failure return errors without inserting anything, and
list_tools and call_tool answer not-connected. -/
theorem ensure_failure_leaves_cache_unchanged_witness :
    McpManager.ensure_stdio [] 7 "cmd" [] (Json.obj []) none 5 .timedOut true true
        .ok (.ok "")
      = ⟨.error "spawn timeout", [], true⟩ ∧
    McpManager.ensure_http [] 7 "u" none 5 (.error "tls") (.resp 200 "null")
      = ⟨.error "tls", [], true⟩ ∧
    (McpManager.list_tools [] 7 5 ⟨.ok, .ok "", .sendErr "x"⟩).2
      = .error "not connected" ∧
    (McpManager.call_tool [] 7 "t" Json.null 5 ⟨.ok, .ok "", .sendErr "x"⟩).2
      = .error "not connected" := by
  have h := ensure_failure_leaves_cache_unchanged [] 7 "cmd" [] (Json.obj []) none 5
    .timedOut true true .ok (.ok "") "u" none (.error "tls") (.resp 200 "null")
    "t" Json.null 5 ⟨.ok, .ok "", .sendErr "x"⟩ rfl
  exact ⟨h.1 "spawn timeout" rfl, h.2.1 "tls" rfl, h.2.2.1, h.2.2.2⟩

/-- Counterexample for C1: a Stdio probe whose spawn succeeds but whose
initialize handshake times out returns with the child spawned and NOT
killed — spawn_stdio_session's error path drops the tokio Child without
kill_on_drop, so the probe leaves the subprocess running. -/
theorem stdio_probe_handshake_failure_leaves_child_unkilled :
    (check_server_stdio "srv" [] none none 5000 5000 (.ok 1) true true
        .ok .timedOut .ok (.ok "null")).childSpawned = some 1 ∧
    (check_server_stdio "srv" [] none none 5000 5000 (.ok 1) true true
        .ok .timedOut .ok (.ok "null")).childKilled = false ∧
    (check_server_stdio "srv" [] none none 5000 5000 (.ok 1) true true
        .ok .timedOut .ok (.ok "null")).result.error = some "read timeout" :=
  ⟨rfl, rfl, rfl⟩

/-- Claim C1 amended: whenever the probe's spawn_stdio_session returns a
session (the handshake succeeded), the child is killed before the probe
returns, on both remaining outcomes (tools-list failure and success); on
a handshake failure the spawned child is not killed (see the
counterexample). -/
theorem stdio_probe_kills_child_after_successful_spawn
    (command : String) (args : List String) (env : Option Json) (cwd : Option String)
    (ct lt : Nat) (spawnO : SpawnOutcome) (stdinP stdoutP : Bool)
    (iw : WriteOutcome) (ir : ReadOutcome) (tw : WriteOutcome) (tr : ReadOutcome)
    (hcmd : trimIsEmpty command = false)
    (hok : ∃ st, (spawn_stdio_session command args env cwd ct spawnO stdinP stdoutP
        iw ir).result = .ok st) :
    (check_server_stdio command args env cwd ct lt spawnO stdinP stdoutP
        iw ir tw tr).childKilled = true := by
  obtain ⟨st, hst⟩ := hok
  unfold check_server_stdio
  rw [hcmd]
  simp only [Bool.false_eq_true, if_false, hst]
  cases h2 : (StdioSession.send st MCP_METHOD_TOOLS_LIST (Json.obj []) lt tw tr).result <;>
    simp [h2]

/-- Witness for C1 amended: a fully successful probe run kills the
child. -/
theorem stdio_probe_kills_child_after_successful_spawn_witness :
    (check_server_stdio "srv" [] none none 5000 5000 (.ok 2) true true
        .ok (.ok "null") .ok (.ok "null")).childKilled = true :=
  stdio_probe_kills_child_after_successful_spawn "srv" [] none none 5000 5000
    (.ok 2) true true .ok (.ok "null") .ok (.ok "null") (by rfl)
    ⟨⟨2, satAdd 0 1⟩, rfl⟩

theorem stdio_send_state (st : StdioState) (method : String) (params : Json)
    (t : Nat) (w : WriteOutcome) (r : ReadOutcome) :
    (StdioSession.send st method params t w r).state
      = { st with next_id := satAdd st.next_id 1 } := by
  cases w with
  | ioErr e => rfl
  | timedOut => rfl
  | ok =>
    cases r with
    | ioErr e => rfl
    | timedOut => rfl
    | ok buf =>
      cases h : jsonParse buf <;> simp [StdioSession.send, h]

theorem stdio_send_req_id (st : StdioState) (method : String) (params : Json)
    (t : Nat) (w : WriteOutcome) (r : ReadOutcome) :
    (StdioSession.send st method params t w r).req.get "id"
      = some (Json.num (Int.ofNat (satAdd st.next_id 1))) := by
  cases w with
  | ioErr e => rfl
  | timedOut => rfl
  | ok =>
    cases r with
    | ioErr e => rfl
    | timedOut => rfl
    | ok buf =>
      cases h : jsonParse buf <;>
        simp [StdioSession.send, h, make_mcp_rpc_req, Json.get, List.lookup]

theorem http_send_state (ht : HttpState) (method : String) (params : Json)
    (t : Nat) (o : HttpOutcome) :
    (HttpSession.send ht method params t o).state
      = { ht with next_id := satAdd ht.next_id 1 } := by
  unfold HttpSession.send
  cases o with
  | sendErr e => rfl
  | resp status body =>
    by_cases hs : status < 200 ∨ 300 ≤ status
    · simp only [if_pos hs]
    · simp only [if_neg hs]
      cases jsonParse body <;> rfl

theorem http_send_req_id (ht : HttpState) (method : String) (params : Json)
    (t : Nat) (o : HttpOutcome) :
    (HttpSession.send ht method params t o).req.get "id"
      = some (Json.num (Int.ofNat (satAdd ht.next_id 1))) := by
  unfold HttpSession.send
  cases o with
  | sendErr e => rfl
  | resp status body =>
    by_cases hs : status < 200 ∨ 300 ≤ status
    · simp only [if_pos hs]
      rfl
    · simp only [if_neg hs]
      cases jsonParse body <;> rfl

theorem U64_MAX_val : U64_MAX = 18446744073709551615 := by
  norm_num [U64_MAX]

theorem stdioStateIter_next_id (c : Nat) (n : Nat) :
    (stdioStateIter c n).next_id = min n U64_MAX := by
  induction n with
  | zero => simp [stdioStateIter]
  | succ n ih =>
    rw [stdioStateIter, stdio_send_state]
    simp only [satAdd, ih]
    have h := U64_MAX_val
    omega

theorem httpStateIter_next_id (n : Nat) :
    (httpStateIter n).next_id = min n U64_MAX := by
  induction n with
  | zero => simp [httpStateIter]
  | succ n ih =>
    rw [httpStateIter, http_send_state]
    simp only [satAdd, ih]
    have h := U64_MAX_val
    omega

/-- Counterexample for C3: starting from a fresh session and sending
2^64 - 2 times, the next two consecutive sends (numbers 2^64 - 1 and
2^64) both carry JSON-RPC id 2^64 - 1: the u64 counter saturates, the
later id is not strictly greater and the id value is reused — on both
transports. -/
theorem request_id_saturates_and_repeats :
    (StdioSession.send (stdioStateIter 0 (U64_MAX - 1)) "m" Json.null 1000
        .ok (.ok "null")).req.get "id"
      = (StdioSession.send
          (StdioSession.send (stdioStateIter 0 (U64_MAX - 1)) "m" Json.null 1000
            .ok (.ok "null")).state "m" Json.null 1000 .ok (.ok "null")).req.get "id" ∧
    (HttpSession.send (httpStateIter (U64_MAX - 1)) "m" Json.null 1000
        (.resp 200 "null")).req.get "id"
      = (HttpSession.send
          (HttpSession.send (httpStateIter (U64_MAX - 1)) "m" Json.null 1000
            (.resp 200 "null")).state "m" Json.null 1000 (.resp 200 "null")).req.get "id" := by
  have harith : satAdd (satAdd (min (U64_MAX - 1) U64_MAX) 1) 1
      = satAdd (min (U64_MAX - 1) U64_MAX) 1 := by
    unfold satAdd
    rw [U64_MAX_val]
    omega
  constructor
  · rw [stdio_send_req_id, stdio_send_state, stdio_send_req_id]
    dsimp only
    rw [stdioStateIter_next_id, harith]
  · rw [http_send_req_id, http_send_state, http_send_req_id]
    dsimp only
    rw [httpStateIter_next_id, harith]

/-- Claim C3 amended: each send (stdio and http alike) advances the
counter with u64 saturating addition and stamps the advanced value as
the envelope id; consequently the id of the m-th send is strictly
smaller than the id of the n-th send whenever m < n and n is at most
2^64 - 1 (so no id is reused within the first 2^64 - 1 sends); at the
saturation point the id 2^64 - 1 repeats (see the counterexample). -/
theorem request_id_strictly_increasing_below_saturation
    (c m n : Nat) (_h1 : 1 ≤ m) (h2 : m < n) (h3 : n ≤ U64_MAX) :
    (stdioStateIter c m).next_id < (stdioStateIter c n).next_id ∧
    (httpStateIter m).next_id < (httpStateIter n).next_id ∧
    (∀ (st : StdioState) (mth : String) (p : Json) (t : Nat)
        (w : WriteOutcome) (r : ReadOutcome),
      (StdioSession.send st mth p t w r).state.next_id = satAdd st.next_id 1 ∧
      (StdioSession.send st mth p t w r).req.get "id"
        = some (Json.num (Int.ofNat (satAdd st.next_id 1)))) ∧
    (∀ (ht : HttpState) (mth : String) (p : Json) (t : Nat) (o : HttpOutcome),
      (HttpSession.send ht mth p t o).state.next_id = satAdd ht.next_id 1 ∧
      (HttpSession.send ht mth p t o).req.get "id"
        = some (Json.num (Int.ofNat (satAdd ht.next_id 1)))) := by
  refine ⟨?_, ?_, ?_, ?_⟩
  · rw [stdioStateIter_next_id, stdioStateIter_next_id]
    have h := U64_MAX_val
    omega
  · rw [httpStateIter_next_id, httpStateIter_next_id]
    have h := U64_MAX_val
    omega
  · intro st mth p t w r
    refine ⟨?_, stdio_send_req_id st mth p t w r⟩
    rw [stdio_send_state]
  · intro ht mth p t o
    refine ⟨?_, http_send_req_id ht mth p t o⟩
    rw [http_send_state]

/-- Witness for C3 amended: the ids of the first and second sends on a
fresh session are 1 and 2. -/
theorem request_id_strictly_increasing_below_saturation_witness :
    (stdioStateIter 0 1).next_id < (stdioStateIter 0 2).next_id ∧
    (stdioStateIter 0 1).next_id = 1 ∧ (stdioStateIter 0 2).next_id = 2 := by
  have h := request_id_strictly_increasing_below_saturation 0 1 2 (by decide)
    (by decide) (by rw [U64_MAX_val]; omega)
  refine ⟨h.1, ?_, ?_⟩
  · rw [stdioStateIter_next_id, U64_MAX_val]
    omega
  · rw [stdioStateIter_next_id, U64_MAX_val]
    omega

theorem strAppend_assoc (a b c : String) : a ++ b ++ c = a ++ (b ++ c) := by
  apply String.ext
  simp [String.data_append]

theorem strAppend_newline_ne (a b : String) : a ++ "\n" ++ b ≠ "" := by
  intro h
  have hd := congrArg String.data h
  simp [String.data_append] at hd

theorem contentLoop_of_ne (items : List Json) :
    ∀ out : String, out ≠ "" →
      contentLoop items out = out ++ tailJoin (items.filterMap textOf) := by
  induction items with
  | nil =>
    intro out _
    apply String.ext
    simp [contentLoop, tailJoin, String.data_append]
  | cons item rest ih =>
    intro out hout
    rcases ht : (item.get "type").bind Json.asStr with _ | ty
    · rw [show contentLoop (item :: rest) out = contentLoop rest out from by
        simp [contentLoop, ht]]
      rw [show (item :: rest).filterMap textOf = rest.filterMap textOf from by
        simp [List.filterMap_cons, textOf, ht]]
      exact ih out hout
    · by_cases hty : ty = "text"
      · subst hty
        rcases htx : (item.get "text").bind Json.asStr with _ | txt
        · rw [show contentLoop (item :: rest) out = contentLoop rest out from by
            simp [contentLoop, ht, htx]]
          rw [show (item :: rest).filterMap textOf = rest.filterMap textOf from by
            simp [List.filterMap_cons, textOf, ht, htx]]
          exact ih out hout
        · rw [show contentLoop (item :: rest) out
              = contentLoop rest (out ++ "\n" ++ txt) from by
            simp [contentLoop, ht, htx, hout]]
          rw [show (item :: rest).filterMap textOf = txt :: rest.filterMap textOf from by
            simp [List.filterMap_cons, textOf, ht, htx]]
          rw [ih (out ++ "\n" ++ txt) (strAppend_newline_ne out txt)]
          rw [tailJoin]
          simp only [strAppend_assoc]
      · rw [show contentLoop (item :: rest) out = contentLoop rest out from by
          simp [contentLoop, ht, hty]]
        rw [show (item :: rest).filterMap textOf = rest.filterMap textOf from by
          simp [List.filterMap_cons, textOf, ht, hty]]
        exact ih out hout

theorem contentLoop_empty (items : List Json) :
    contentLoop items ""
      = newlineJoin ((items.filterMap textOf).dropWhile (fun t => t == "")) := by
  induction items with
  | nil => rfl
  | cons item rest ih =>
    rcases ht : (item.get "type").bind Json.asStr with _ | ty
    · rw [show contentLoop (item :: rest) "" = contentLoop rest "" from by
        simp [contentLoop, ht]]
      rw [show (item :: rest).filterMap textOf = rest.filterMap textOf from by
        simp [List.filterMap_cons, textOf, ht]]
      exact ih
    · by_cases hty : ty = "text"
      · subst hty
        rcases htx : (item.get "text").bind Json.asStr with _ | txt
        · rw [show contentLoop (item :: rest) "" = contentLoop rest "" from by
            simp [contentLoop, ht, htx]]
          rw [show (item :: rest).filterMap textOf = rest.filterMap textOf from by
            simp [List.filterMap_cons, textOf, ht, htx]]
          exact ih
        · rw [show (item :: rest).filterMap textOf = txt :: rest.filterMap textOf from by
            simp [List.filterMap_cons, textOf, ht, htx]]
          by_cases htxt : txt = ""
          · subst htxt
            rw [show contentLoop (item :: rest) "" = contentLoop rest "" from by
              simp [contentLoop, ht, htx]]
            rw [show (("" : String) :: rest.filterMap textOf).dropWhile (fun t => t == "")
                = (rest.filterMap textOf).dropWhile (fun t => t == "") from by
              simp [List.dropWhile_cons]]
            exact ih
          · rw [show contentLoop (item :: rest) "" = contentLoop rest txt from by
              simp [contentLoop, ht, htx]]
            rw [show (txt :: rest.filterMap textOf).dropWhile (fun t => t == "")
                = txt :: rest.filterMap textOf from by
              simp [List.dropWhile_cons, htxt]]
            rw [contentLoop_of_ne rest txt htxt, newlineJoin]
      · rw [show contentLoop (item :: rest) "" = contentLoop rest "" from by
          simp [contentLoop, ht, hty]]
        rw [show (item :: rest).filterMap textOf = rest.filterMap textOf from by
          simp [List.filterMap_cons, textOf, ht, hty]]
        exact ih

/-- Counterexample for C9: an array of text blocks whose first text is
the empty string.  The code returns "b" (the loop adds a separator only
when the accumulator is already nonempty), while joining the text fields
["", "b"] with a single newline gives the newline-prefixed string — the
claim as stated fails. -/
theorem call_tool_leading_empty_text_counterexample :
    extract_tool_content c9Result = "b" ∧
    c9Blocks.filterMap textOf = ["", "b"] ∧
    newlineJoin ["", "b"] = "\nb" ∧
    extract_tool_content c9Result ≠ newlineJoin (c9Blocks.filterMap textOf) := by
  refine ⟨rfl, rfl, ?_, ?_⟩
  · decide
  · intro h
    rw [show c9Blocks.filterMap textOf = ["", "b"] from rfl] at h
    rw [show extract_tool_content c9Result = "b" from rfl] at h
    rw [show newlineJoin ["", "b"] = "\nb" from by decide] at h
    exact absurd h (by decide)

/-- Claim C9 amended: a string content is returned as-is; an array
content returns the text fields of the blocks whose type is "text"
joined by a single newline, except that empty text fields contribute
nothing while no text has been emitted yet (equivalently, leading empty
strings are dropped before joining — see the counterexample for the
divergence); any other content shape yields the empty string; and a
successful call_tool returns exactly this extraction of its result. -/
theorem call_tool_content_extraction_amended :
    (∀ v s, v.get "content" = some (Json.str s) → extract_tool_content v = s) ∧
    (∀ v items, v.get "content" = some (Json.arr items) →
      extract_tool_content v
        = newlineJoin ((items.filterMap textOf).dropWhile (fun t => t == ""))) ∧
    (∀ v, v.get "content" = none → extract_tool_content v = "") ∧
    (∀ v j, v.get "content" = some j → j.isStr = false → j.asArr = none →
      extract_tool_content v = "") ∧
    (∀ (sessions : Cache) (id : Int) (tool : String) (cargs : Json) (tm : Nat)
        (o : SendOracle) (s stp : McpSession) (v : Json),
      cacheLookup sessions id = some s →
      McpSession.send s MCP_METHOD_TOOLS_CALL
          (Json.obj [("name", Json.str tool), ("arguments", cargs)]) tm o
        = (stp, .ok v) →
      (McpManager.call_tool sessions id tool cargs tm o).2
        = .ok (extract_tool_content v)) := by
  refine ⟨?_, ?_, ?_, ?_, ?_⟩
  · intro v s h
    simp [extract_tool_content, h]
  · intro v items h
    simp [extract_tool_content, h, contentLoop_empty]
  · intro v h
    simp [extract_tool_content, h]
  · intro v j h h1 h2
    cases j <;> simp_all [extract_tool_content, Json.isStr, Json.asArr]
  · intro sessions id tool cargs tm o s stp v hlk hsend
    simp [McpManager.call_tool, hlk, hsend, Except.map]

/-- Witness for C9 amended: Scenario D returns "a" newline "b"; a string
content is returned as-is; absent and non-string/non-array contents give
the empty string; a successful call_tool over a cached http session with
a null result returns the empty extraction. -/
theorem call_tool_content_extraction_amended_witness :
    extract_tool_content c9ScenarioD = "a\nb" ∧
    extract_tool_content (Json.obj [("content", Json.str "plain")]) = "plain" ∧
    extract_tool_content (Json.obj []) = "" ∧
    extract_tool_content (Json.obj [("content", Json.num 5)]) = "" ∧
    (McpManager.call_tool
        [(3, McpSession.http { url := "u", headers := none, next_id := 0 })]
        3 "t" Json.null 5 ⟨.ok, .ok "", .resp 200 "null"⟩).2 = .ok "" := by
  refine ⟨?_, ?_, ?_, ?_, ?_⟩
  · have h := (call_tool_content_extraction_amended).2.1 c9ScenarioD _ rfl
    rw [h]
    decide
  · exact (call_tool_content_extraction_amended).1 _ "plain" rfl
  · exact (call_tool_content_extraction_amended).2.2.1 _ rfl
  · exact (call_tool_content_extraction_amended).2.2.2.1 _ (Json.num 5) rfl rfl rfl
  · exact (call_tool_content_extraction_amended).2.2.2.2 _ 3 "t" Json.null 5 _
      (McpSession.http { url := "u", headers := none, next_id := 0 })
      (McpSession.http { url := "u", headers := none, next_id := satAdd 0 1 })
      Json.null rfl rfl

/-- Claim C2 evaluated on the code (bug exhibit): a config row with an
auth token and no headers produces, through ensure_http_from_row, a
cached session whose stored headers are None, so its sends apply no
header at all — in particular no Authorization header derived from the
token — although merge_auth_header (the helper whose documentation and
body implement exactly the claimed only-when-absent synthesis) would
have produced one.  The adapter never reads row.auth and never calls
merge_auth_header. -/
theorem http_row_auth_token_dropped :
    (ensure_http_from_row [] 1 c2Row 5000 (.ok ()) (.resp 200 "null")).result
      = .ok () ∧
    cacheLookup (ensure_http_from_row [] 1 c2Row 5000 (.ok ()) (.resp 200 "null")).sessions 1
      = some (.http { url := "u", headers := none, next_id := satAdd 0 1 }) ∧
    c2Row.auth = some "Bearer tok" ∧
    (HttpSession.send { url := "u", headers := none, next_id := satAdd 0 1 }
        MCP_METHOD_TOOLS_LIST Json.null 5000 (.resp 200 "null")).headersApplied = [] ∧
    merge_auth_header none (some "Bearer tok")
      = some (Json.obj [("Authorization", Json.str "Bearer tok")]) :=
  ⟨rfl, rfl, rfl, rfl, rfl⟩

end Mcp
